import Mathlib

/-!
Verification of the federated-learning demonstration harness
(`fl_server/server.py`, `fl_client/client.py`).

The repository delegates federated averaging to the external `flwr`
framework and supplies thin subclasses around it.  We embed:

* the server-side `RichStrategy.aggregate_fit` / `aggregate_evaluate`
  wrappers (empty-result sentinels, best-effort byte tally, event logging,
  accuracy filtering) directly from `fl_server/server.py`;
* the client-side `FlowerClient.fit` / `FlowerClient.evaluate` methods
  directly from `fl_client/client.py`, with the TensorFlow training step
  abstracted as an arbitrary function on weights;
* the framework's `FedAvg` aggregation, which is not part of this
  repository, modelled from the specification.

Machine floats are embedded as rationals (`ℚ`); Python ints as `ℤ`/`ℕ`.
All functions are total Lean functions: "does not raise" corresponds to
totality of the embedding, with fallible sub-computations made explicit
through `Option`.
-/

/-- A scalar metric value as carried in a Flower metrics map
(`Dict[str, Scalar]`).  `Scalar.err` abstracts any value on which a
numeric conversion such as Python's `int(...)` raises (the framework's
`Scalar` union also admits `bytes`/`str`, for which conversion can fail). -/
inductive Scalar where
  | int : ℤ → Scalar
  | float : ℚ → Scalar
  | err : Scalar
deriving DecidableEq

/-- A metrics map `Dict[str, Scalar]`, embedded as an association list with
first-match lookup. -/
abbrev Metrics : Type := List (String × Scalar)

/-- Dictionary lookup `metrics[key]` / `key in metrics`. -/
def lookupMetric : Metrics → String → Option Scalar
  | [], _ => none
  | (k, v) :: rest, key => if k = key then some v else lookupMetric rest key

/-- Dictionary lookup with default, `metrics.get(key, default)`. -/
def getMetricD (m : Metrics) (key : String) (dflt : Scalar) : Scalar :=
  (lookupMetric m key).getD dflt

/-- Python's `int(x)` on a metric value: identity on ints, truncation toward
zero on floats, failure (`None`) on values where the conversion raises. -/
def toInt? : Scalar → Option ℤ
  | Scalar.int n => some n
  | Scalar.float q => some (q.num / (q.den : ℤ))
  | Scalar.err => none

/-- Numeric reading of a metric value, as used for accuracy aggregation. -/
def toRat? : Scalar → Option ℚ
  | Scalar.int n => some (n : ℚ)
  | Scalar.float q => some q
  | Scalar.err => none

/-- A ParameterSet as seen by the server's aggregation: the ordered sequence
of numeric weight entries of one model (tensors flattened in order; shapes
are fixed by the architecture throughout a session). -/
abbrev ParameterSet : Type := List ℚ

/-- One entry of the `results` list of `aggregate_fit`: a client's
`FitRes` — updated parameters, `num_examples`, and a metrics map. -/
structure FitRes where
  parameters : ParameterSet
  numExamples : ℕ
  metrics : Metrics
deriving DecidableEq

/-- One entry of the `results` list of `aggregate_evaluate`: a client's
`EvaluateRes` — loss, `num_examples`, and a metrics map. -/
structure EvaluateRes where
  loss : ℚ
  numExamples : ℕ
  metrics : Metrics
deriving DecidableEq

/-- The events `RichStrategy` emits through `self.ui.log` during
aggregation, one constructor per distinct message shape. -/
inductive Event where
  | noResults : ℕ → Event
  | aggregating : ℕ → ℕ → Event
  | byteReport : ℕ → ℤ → ℤ → Event
  | failureWarning : ℕ → ℕ → Event
  | noEvalResults : ℕ → Event
  | accuracyReport : ℕ → Scalar → Event
  | noAccuracy : ℕ → Event
deriving DecidableEq

/-- Sum of all example counts in a round (`num_examples_total`). -/
def totalExamples (results : List FitRes) : ℚ :=
  (results.map (fun r => (r.numExamples : ℚ))).sum

/-- Parameter count of the first client's update (all clients share the
model architecture, so all parameter lists have this length). -/
def headLen : List FitRes → ℕ
  | [] => 0
  | r :: _ => r.parameters.length

/-- Entry `i` of the federated average: the example-count-weighted sum of
the clients' entries `i`, divided by the total example count. -/
def weightedEntry (results : List FitRes) (i : ℕ) : ℚ :=
  (results.map (fun r => (r.numExamples : ℚ) * r.parameters.getD i 0)).sum /
    totalExamples results

/-- Modelled from the spec: the federated-averaging aggregation that the
repository delegates to the external framework's `FedAvg.aggregate_fit`
(`flwr`, not part of this repository): "computes the weighted average of
all ParameterSets, weight = each client's `example_count` normalized by
the sum of all example_counts in this round". -/
def fedAvgParams (results : List FitRes) : ParameterSet :=
  (List.range (headLen results)).map (weightedEntry results)

/-- The federated-averaging rule exactly as the specification words it:
`new_weight[i] = Σ_c (example_count[c] / Σexample_count) * weight[i][c]`.
Stated separately from `fedAvgParams` so the aggregation can be compared
against the spec's own formula. -/
def specNewWeight (results : List FitRes) (i : ℕ) : ℚ :=
  (results.map (fun r =>
    ((r.numExamples : ℚ) / totalExamples results) * r.parameters.getD i 0)).sum

/-- Modelled from the spec: the external framework's whole
`FedAvg.aggregate_fit` (not part of this repository): empty `results`
yield no update and empty metrics, otherwise the federated average of the
ParameterSets; a non-empty `failures` list does not block aggregation of
the successful subset, so the result depends on `results` alone. -/
def baseAggregateFit (results : List FitRes) (failures : List Unit) :
    Option ParameterSet × Metrics :=
  if results = [] then (none, []) else (some (fedAvgParams results), [])

/-- `int(fitres.metrics.get("up_bytes", fitres.metrics.get("bytes", 0)))`,
`None` when the conversion raises. -/
def perResultUp (r : FitRes) : Option ℤ :=
  toInt? (getMetricD r.metrics "up_bytes" (getMetricD r.metrics "bytes" (Scalar.int 0)))

/-- `int(fitres.metrics.get("down_bytes", 0))`, `None` when the conversion
raises. -/
def perResultDown (r : FitRes) : Option ℤ :=
  toInt? (getMetricD r.metrics "down_bytes" (Scalar.int 0))

/-- The accumulation loop over `results` inside the `try` block of
`aggregate_fit`: sums `up_bytes` and `down_bytes`, failing (`None`) as
soon as any conversion raises. -/
def tallyLoop : List FitRes → Option (ℤ × ℤ)
  | [] => some (0, 0)
  | r :: rest =>
    match perResultUp r, perResultDown r, tallyLoop rest with
    | some u, some d, some (tu, td) => some (u + tu, d + td)
    | _, _, _ => none

/-- The whole `try`/`except` byte tally of `aggregate_fit`: the pair
`(total_up, total_down)`, reset to `(0, 0)` if any step raised. -/
def serverTally (results : List FitRes) : ℤ × ℤ :=
  (tallyLoop results).getD (0, 0)

/-- Result of `RichStrategy.aggregate_fit`: the returned pair together
with the events logged while producing it. -/
structure AggFitOut where
  parameters : Option ParameterSet
  metrics : Metrics
  events : List Event
deriving DecidableEq

/-- Result of `RichStrategy.aggregate_evaluate`: the returned pair
together with the events logged while producing it. -/
structure AggEvalOut where
  loss : Option ℚ
  metrics : Metrics
  events : List Event
deriving DecidableEq

namespace RichStrategy

/-- `RichStrategy.aggregate_fit` (fl_server/server.py, lines 78–121):
empty `results` log "No results received" and return `(None, {})`;
otherwise log the aggregation event, tally bytes best-effort, delegate
aggregation to `super()`, report byte totals when positive, and warn
about a non-empty `failures` list. -/
def aggregate_fit (round : ℕ) (results : List FitRes) (failures : List Unit) :
    AggFitOut :=
  if results = [] then
    AggFitOut.mk none [] [Event.noResults round]
  else
    let t := serverTally results
    let base := baseAggregateFit results failures
    AggFitOut.mk base.1 base.2
      (Event.aggregating round results.length ::
        ((if 0 < t.1 ∨ 0 < t.2 then [Event.byteReport round t.1 t.2] else []) ++
          (if failures = [] then [] else [Event.failureWarning round failures.length])))

end RichStrategy

/-- A numpy array as handed to the client: its numeric data, its element
size in bytes (`itemsize`, 4 for float32), and whether the `.nbytes`
attribute access succeeds (`false` abstracts a list element that is not a
numpy array, on which `w.nbytes` raises). -/
structure NdArray where
  data : List ℚ
  itemsize : ℕ
  nbytesOk : Bool
deriving DecidableEq

/-- `w.nbytes`: the serialized byte size of one array, `None` when the
attribute access raises. -/
def nbytes? (a : NdArray) : Option ℕ :=
  if a.nbytesOk then some (a.data.length * a.itemsize) else none

/-- The byte size of a serialized ParameterSet on the wire: the sum of its
arrays' byte sizes. -/
def serializedSize (ps : List NdArray) : ℕ :=
  (ps.map (fun a => a.data.length * a.itemsize)).sum

/-- The generator sum `sum(w.nbytes for w in ws)` inside the client's
`try` block: the summed byte size, failing (`None`) as soon as any
`nbytes` access raises. -/
def sumNbytes : List NdArray → Option ℕ
  | [] => some 0
  | a :: rest =>
    match nbytes? a, sumNbytes rest with
    | some b, some s => some (b + s)
    | _, _ => none

/-- The client's whole `try: bytes = sum(w.nbytes for w in ws) except:
bytes = 0` pattern: the summed byte size, or 0 if any access raised. -/
def bytesOf (ps : List NdArray) : ℤ :=
  match sumNbytes ps with
  | some s => (s : ℤ)
  | none => 0

/-- The client's local Keras model, reduced to the state the embedded
methods touch: its current weights. -/
structure ClientModel where
  weights : List NdArray
deriving DecidableEq

/-- `model.set_weights(parameters)`: full overwrite of the model's
weights by the received ParameterSet. -/
def set_weights (_m : ClientModel) (parameters : List NdArray) : ClientModel :=
  ClientModel.mk parameters

/-- `model.fit(..., epochs=n, ...)`: `n` successive applications of one
local training epoch, where a single epoch is an arbitrary function
`epoch` on the weights (the TensorFlow optimizer step is external to the
repository). -/
def runEpochs (epoch : List NdArray → List NdArray) : ℕ → List NdArray → List NdArray
  | 0, w => w
  | n + 1, w => runEpochs epoch n (epoch w)

/-- What `FlowerClient.fit` returns: the model state afterwards and the
`(new_weights, len(x_train), metrics)` triple sent to the server. -/
structure FitReturn where
  newModel : ClientModel
  weights : List NdArray
  numExamples : ℕ
  metrics : Metrics
deriving DecidableEq

/-- What `FlowerClient.evaluate` returns: the model state afterwards and
the `(loss, len(x_test), metrics)` triple sent to the server. -/
structure EvalReturn where
  newModel : ClientModel
  loss : ℚ
  numExamples : ℕ
  metrics : Metrics
deriving DecidableEq

namespace FlowerClient

/-- `FlowerClient.fit` (fl_client/client.py, lines 51–72): best-effort
`down_bytes` of the incoming parameters, full-overwrite
`model.set_weights(parameters)`, one local training epoch
(`model.fit(x_train, y_train, epochs=1, ...)`), best-effort `up_bytes`
of the updated weights, and the reply
`(new_weights, len(x_train), {"up_bytes": ..., "down_bytes": ...})`.
`epoch` is the external one-epoch training step and `xTrainLen` is
`len(x_train)`, the size of the local partition. -/
def fit (epoch : List NdArray → List NdArray) (xTrainLen : ℕ)
    (m : ClientModel) (parameters : List NdArray) (_config : Metrics) : FitReturn :=
  let down_bytes := bytesOf parameters
  let m1 := set_weights m parameters
  let m2 := ClientModel.mk (runEpochs epoch 1 m1.weights)
  let new_weights := m2.weights
  let up_bytes := bytesOf new_weights
  FitReturn.mk m2 new_weights xTrainLen
    [("up_bytes", Scalar.int up_bytes), ("down_bytes", Scalar.int down_bytes)]

/-- `FlowerClient.evaluate` (fl_client/client.py, lines 74–88):
best-effort `down_bytes` of the incoming parameters, full-overwrite
`model.set_weights(parameters)`, scoring on the local holdout (the
external `model.evaluate`, an arbitrary function `score` from weights to
`(loss, accuracy)`), and the reply
`(loss, len(x_test), {"accuracy": ..., "down_bytes": ...})`. -/
def evaluate (score : List NdArray → ℚ × ℚ) (xTestLen : ℕ)
    (m : ClientModel) (parameters : List NdArray) (_config : Metrics) : EvalReturn :=
  let down_bytes := bytesOf parameters
  let m1 := set_weights m parameters
  let sc := score m1.weights
  EvalReturn.mk m1 sc.1 xTestLen
    [("accuracy", Scalar.float sc.2), ("down_bytes", Scalar.int down_bytes)]

end FlowerClient

/-- Total example count of an evaluation round. -/
def totalEvalExamples (results : List EvaluateRes) : ℚ :=
  (results.map (fun r => (r.numExamples : ℚ))).sum

/-- The client's reported accuracy, when present and numeric. -/
def accOf (r : EvaluateRes) : Option ℚ :=
  (lookupMetric r.metrics "accuracy").bind toRat?

/-- The client's reported accuracy with default 0 (only used when every
client's accuracy is present). -/
def accValD (r : EvaluateRes) : ℚ :=
  (accOf r).getD 0

/-- Example-count-weighted average of the clients' accuracies. -/
def weightedAcc (results : List EvaluateRes) : ℚ :=
  (results.map (fun r => (r.numExamples : ℚ) * accValD r)).sum /
    totalEvalExamples results

/-- Example-count-weighted average of the clients' losses. -/
def weightedLoss (results : List EvaluateRes) : ℚ :=
  (results.map (fun r => (r.numExamples : ℚ) * r.loss)).sum /
    totalEvalExamples results

/-- Modelled from the spec: the external framework's
`FedAvg.aggregate_evaluate` (not part of this repository):
"weighted-average loss by example_count using the same rule as fit; if an
`accuracy` key is present in per-client metrics, compute its weighted
average and surface it as the round's reported accuracy metric; if
absent, surface whatever metrics aggregation produced as-is". -/
def baseAggregateEvaluate (results : List EvaluateRes) : Option ℚ × Metrics :=
  (some (weightedLoss results),
    if results.all (fun r => (accOf r).isSome) then
      [("accuracy", Scalar.float (weightedAcc results))]
    else [])

/-- The post-processing of `super().aggregate_evaluate`'s result in
`RichStrategy.aggregate_evaluate` (fl_server/server.py, lines 132–143):
`if metrics and "accuracy" in metrics`, log the aggregated accuracy and
return `(loss, {"accuracy": accuracy})`; otherwise log that no accuracy
metrics are available and return `(loss, metrics)` unchanged. -/
def postEvaluate (round : ℕ) (loss : Option ℚ) (metrics : Metrics) : AggEvalOut :=
  if metrics = [] then
    AggEvalOut.mk loss metrics [Event.noAccuracy round]
  else
    match lookupMetric metrics "accuracy" with
    | some v => AggEvalOut.mk loss [("accuracy", v)] [Event.accuracyReport round v]
    | none => AggEvalOut.mk loss metrics [Event.noAccuracy round]

namespace RichStrategy

/-- `RichStrategy.aggregate_evaluate` (fl_server/server.py, lines
127–143): empty `results` log "No evaluation results" and return
`(None, {})`; otherwise delegate to `super()` and post-process the
metrics as in `postEvaluate`. -/
def aggregate_evaluate (round : ℕ) (results : List EvaluateRes)
    (failures : List Unit) : AggEvalOut :=
  if results = [] then
    AggEvalOut.mk none [] [Event.noEvalResults round]
  else
    let base := baseAggregateEvaluate results
    postEvaluate round base.1 base.2

end RichStrategy

/-! ## Helper lemmas -/

/-- When every array supports `nbytes`, the generator sum succeeds and
computes the serialized size. -/
theorem sumNbytes_of_ok (ps : List NdArray) (h : ∀ a ∈ ps, a.nbytesOk = true) :
    sumNbytes ps = some (serializedSize ps) := by
  induction ps with
  | nil => rfl
  | cons a rest ih =>
    have ha : a.nbytesOk = true := h a (List.mem_cons_self a rest)
    have hrest : sumNbytes rest = some (serializedSize rest) :=
      ih (fun b hb => h b (List.mem_cons_of_mem a hb))
    simp [sumNbytes, nbytes?, ha, hrest, serializedSize]

/-- When every array supports `nbytes`, the reported byte count is the
serialized size. -/
theorem bytesOf_of_ok (ps : List NdArray) (h : ∀ a ∈ ps, a.nbytesOk = true) :
    bytesOf ps = (serializedSize ps : ℤ) := by
  simp [bytesOf, sumNbytes_of_ok ps h]

/-- If any array lacks `nbytes`, the generator sum fails. -/
theorem sumNbytes_of_bad (ps : List NdArray) (h : ∃ a ∈ ps, a.nbytesOk = false) :
    sumNbytes ps = none := by
  induction ps with
  | nil => simp at h
  | cons a rest ih =>
    rcases h with ⟨b, hb, hbad⟩
    rcases List.mem_cons.mp hb with rfl | htail
    · simp [sumNbytes, nbytes?, hbad]
    · have : sumNbytes rest = none := ih ⟨b, htail, hbad⟩
      cases hcase : nbytes? a <;> simp [sumNbytes, hcase, this]

/-- If any per-client byte conversion fails, the whole tally loop fails. -/
theorem tallyLoop_of_bad (results : List FitRes)
    (h : ∃ r ∈ results, perResultUp r = none ∨ perResultDown r = none) :
    tallyLoop results = none := by
  induction results with
  | nil => simp at h
  | cons r rest ih =>
    rcases h with ⟨s, hs, hbad⟩
    rcases List.mem_cons.mp hs with rfl | htail
    · rcases hbad with hu | hd
      · simp [tallyLoop, hu]
      · cases hcu : perResultUp s <;> simp [tallyLoop, hcu, hd]
    · have hrest : tallyLoop rest = none := ih ⟨s, htail, hbad⟩
      cases hcu : perResultUp r <;> cases hcd : perResultDown r <;>
        simp [tallyLoop, hcu, hcd, hrest]

/-! ## Claims -/

/-- C3: on an empty `results` list, `aggregate_fit` returns the
"no update" sentinel `(None, {})` and `aggregate_evaluate` the "no loss"
sentinel `(None, {})`; both are total functions (no exception is
modelled), and the logged empty-round events are distinct from the
partial-failure warning event. -/
theorem aggregate_empty_returns_sentinels (round : ℕ) (failures : List Unit) :
    RichStrategy.aggregate_fit round [] failures =
        AggFitOut.mk none [] [Event.noResults round] ∧
      RichStrategy.aggregate_evaluate round [] failures =
        AggEvalOut.mk none [] [Event.noEvalResults round] ∧
      ∀ n : ℕ, Event.noResults round ≠ Event.failureWarning round n ∧
        Event.noEvalResults round ≠ Event.failureWarning round n := by
  refine ⟨rfl, rfl, fun n => ⟨by simp, by simp⟩⟩

/-- C4: `FlowerClient.fit` applies the received parameters as a full
overwrite of the model weights (the previous state `m` is irrelevant),
runs exactly one local training epoch on them, and returns the updated
weights together with `len(x_train)` — the size of the local training
partition — as the example count. -/
theorem fit_overwrites_and_trains_one_epoch
    (epoch : List NdArray → List NdArray) (xTrainLen : ℕ) (m : ClientModel)
    (parameters : List NdArray) (config : Metrics) :
    (set_weights m parameters).weights = parameters ∧
      (FlowerClient.fit epoch xTrainLen m parameters config).weights =
        runEpochs epoch 1 parameters ∧
      runEpochs epoch 1 parameters = epoch parameters ∧
      (FlowerClient.fit epoch xTrainLen m parameters config).numExamples = xTrainLen ∧
      (FlowerClient.fit epoch xTrainLen m parameters config).newModel.weights =
        runEpochs epoch 1 parameters :=
  ⟨rfl, rfl, rfl, rfl, rfl⟩

/-- C10: whenever the metrics map produced by the underlying aggregation
is non-empty and contains the key "accuracy", `aggregate_evaluate`'s
post-processing returns a metrics map holding exactly the single key
"accuracy"; every other key is discarded. -/
theorem aggregate_evaluate_keeps_only_accuracy (round : ℕ) (loss : Option ℚ)
    (metrics : Metrics) (v : Scalar) (hm : metrics ≠ [])
    (hv : lookupMetric metrics "accuracy" = some v) :
    (postEvaluate round loss metrics).metrics = [("accuracy", v)] ∧
      ((postEvaluate round loss metrics).metrics.map Prod.fst) = ["accuracy"] := by
  unfold postEvaluate
  rw [if_neg hm, hv]
  exact ⟨rfl, rfl⟩

/-- Witness for C10 at a concrete three-key metrics map. -/
theorem aggregate_evaluate_keeps_only_accuracy_witness :
    ([("loss_total", Scalar.int 3), ("accuracy", Scalar.float (1/2)),
        ("extra", Scalar.int 7)] : Metrics) ≠ [] ∧
      lookupMetric [("loss_total", Scalar.int 3), ("accuracy", Scalar.float (1/2)),
        ("extra", Scalar.int 7)] "accuracy" = some (Scalar.float (1/2)) ∧
      (postEvaluate 2 (some (1/10)) [("loss_total", Scalar.int 3),
          ("accuracy", Scalar.float (1/2)), ("extra", Scalar.int 7)]).metrics =
        [("accuracy", Scalar.float (1/2))] := by
  refine ⟨by simp [Metrics], by simp [lookupMetric], ?_⟩
  exact (aggregate_evaluate_keeps_only_accuracy 2 (some (1/10)) _ _
    (by simp [Metrics]) (by simp [lookupMetric])).1

/-- C5: byte counting is best-effort.  On the client, a failing `nbytes`
access makes the reported byte count 0, and `fit` still completes with
`down_bytes = 0` in its metrics; on the server, a failing conversion in
the per-round tally makes both totals `(0, 0)`.  No exception escapes:
`bytesOf`, `FlowerClient.fit` and `serverTally` are total functions. -/
theorem byte_counting_best_effort
    (epoch : List NdArray → List NdArray) (xTrainLen : ℕ) (m : ClientModel)
    (ps : List NdArray) (config : Metrics) (results : List FitRes)
    (h1 : ∃ a ∈ ps, a.nbytesOk = false)
    (h2 : ∃ r ∈ results, perResultUp r = none ∨ perResultDown r = none) :
    bytesOf ps = 0 ∧
      lookupMetric (FlowerClient.fit epoch xTrainLen m ps config).metrics
          "down_bytes" = some (Scalar.int 0) ∧
      serverTally results = (0, 0) := by
  have hb : bytesOf ps = 0 := by
    simp [bytesOf, sumNbytes_of_bad ps h1]
  refine ⟨hb, ?_, ?_⟩
  · have hm : (FlowerClient.fit epoch xTrainLen m ps config).metrics =
        [("up_bytes", Scalar.int (bytesOf (runEpochs epoch 1 ps))),
          ("down_bytes", Scalar.int (bytesOf ps))] := rfl
    rw [hm, hb]
    rfl
  · simp [serverTally, tallyLoop_of_bad results h2]

/-- Witness for C5: a parameter list whose single element lacks `nbytes`
and a results list whose single metrics map carries a non-convertible
`up_bytes` value. -/
theorem byte_counting_best_effort_witness :
    (∃ a ∈ [NdArray.mk [1] 4 false], a.nbytesOk = false) ∧
      (∃ r ∈ [FitRes.mk [1] 5 [("up_bytes", Scalar.err)]],
        perResultUp r = none ∨ perResultDown r = none) ∧
      bytesOf [NdArray.mk [1] 4 false] = 0 ∧
      serverTally [FitRes.mk [1] 5 [("up_bytes", Scalar.err)]] = (0, 0) := by
  refine ⟨by decide, by decide, ?_, ?_⟩
  · exact (byte_counting_best_effort (fun w => w) 0 (ClientModel.mk [])
      [NdArray.mk [1] 4 false] [] [FitRes.mk [1] 5 [("up_bytes", Scalar.err)]]
      (by decide) (by decide)).1
  · exact (byte_counting_best_effort (fun w => w) 0 (ClientModel.mk [])
      [NdArray.mk [1] 4 false] [] [FitRes.mk [1] 5 [("up_bytes", Scalar.err)]]
      (by decide) (by decide)).2.2

/-- C6: for well-formed numpy parameters, the client's reported
`down_bytes` equals the serialized byte size of the ParameterSet it
received (in `fit` and in `evaluate`), and `up_bytes` equals the
serialized byte size of the ParameterSet it returns. -/
theorem client_reports_serialized_sizes
    (epoch : List NdArray → List NdArray) (score : List NdArray → ℚ × ℚ)
    (xTrainLen xTestLen : ℕ) (m : ClientModel) (ps : List NdArray)
    (config : Metrics)
    (hdown : ∀ a ∈ ps, a.nbytesOk = true)
    (hup : ∀ a ∈ runEpochs epoch 1 ps, a.nbytesOk = true) :
    lookupMetric (FlowerClient.fit epoch xTrainLen m ps config).metrics
        "down_bytes" = some (Scalar.int (serializedSize ps)) ∧
      lookupMetric (FlowerClient.fit epoch xTrainLen m ps config).metrics
        "up_bytes" = some (Scalar.int (serializedSize
          ((FlowerClient.fit epoch xTrainLen m ps config).weights))) ∧
      lookupMetric (FlowerClient.evaluate score xTestLen m ps config).metrics
        "down_bytes" = some (Scalar.int (serializedSize ps)) := by
  have hfit : (FlowerClient.fit epoch xTrainLen m ps config).metrics =
      [("up_bytes", Scalar.int (bytesOf (runEpochs epoch 1 ps))),
        ("down_bytes", Scalar.int (bytesOf ps))] := rfl
  have heval : (FlowerClient.evaluate score xTestLen m ps config).metrics =
      [("accuracy", Scalar.float (score ps).2),
        ("down_bytes", Scalar.int (bytesOf ps))] := rfl
  have hw : (FlowerClient.fit epoch xTrainLen m ps config).weights =
      runEpochs epoch 1 ps := rfl
  refine ⟨?_, ?_, ?_⟩
  · rw [hfit, bytesOf_of_ok ps hdown]
    rfl
  · rw [hfit, hw, bytesOf_of_ok _ hup]
    rfl
  · rw [heval, bytesOf_of_ok ps hdown]
    rfl

/-- Witness for C6: two float32 arrays of 10 and 20 elements give
`down_bytes = 120` (and, with an identity training epoch, `up_bytes =
120` as well). -/
theorem client_reports_serialized_sizes_witness :
    (∀ a ∈ [NdArray.mk (List.replicate 10 0) 4 true,
        NdArray.mk (List.replicate 20 0) 4 true], a.nbytesOk = true) ∧
      serializedSize [NdArray.mk (List.replicate 10 0) 4 true,
        NdArray.mk (List.replicate 20 0) 4 true] = 120 ∧
      lookupMetric (FlowerClient.fit (fun w => w) 60000 (ClientModel.mk [])
          [NdArray.mk (List.replicate 10 0) 4 true,
            NdArray.mk (List.replicate 20 0) 4 true] []).metrics "down_bytes" =
        some (Scalar.int 120) ∧
      lookupMetric (FlowerClient.fit (fun w => w) 60000 (ClientModel.mk [])
          [NdArray.mk (List.replicate 10 0) 4 true,
            NdArray.mk (List.replicate 20 0) 4 true] []).metrics "up_bytes" =
        some (Scalar.int 120) := by
  have hs : serializedSize [NdArray.mk (List.replicate 10 0) 4 true,
      NdArray.mk (List.replicate 20 0) 4 true] = 120 := by decide
  have hcast : (120 : ℤ) = ((serializedSize [NdArray.mk (List.replicate 10 0) 4 true,
      NdArray.mk (List.replicate 20 0) 4 true] : ℕ) : ℤ) := by decide
  have h := client_reports_serialized_sizes (fun w => w) (fun _ => (0, 1))
    60000 10000 (ClientModel.mk [])
    [NdArray.mk (List.replicate 10 0) 4 true,
      NdArray.mk (List.replicate 20 0) 4 true] []
    (by decide) (by decide)
  refine ⟨by decide, hs, ?_, ?_⟩
  · rw [hcast]
    exact h.1
  · rw [hcast]
    exact h.2.1

/-- Dividing a list sum distributes over the elements. -/
theorem list_sum_div (l : List ℚ) (d : ℚ) :
    l.sum / d = (l.map (fun x => x / d)).sum := by
  induction l with
  | nil => simp
  | cons a t ih => simp [List.sum_cons, add_div, ih]

/-- Each entry of the federated average agrees with the spec's
normalized-weight formula. -/
theorem weightedEntry_eq_spec (results : List FitRes) (i : ℕ) :
    weightedEntry results i = specNewWeight results i := by
  unfold weightedEntry specNewWeight
  rw [list_sum_div, List.map_map]
  refine congrArg List.sum (List.map_congr_left ?_)
  intro r _
  exact (div_mul_eq_mul_div _ _ _).symm

/-- The total example count is invariant under permutation of the
results. -/
theorem totalExamples_perm (results results2 : List FitRes)
    (h : results.Perm results2) :
    totalExamples results = totalExamples results2 :=
  List.Perm.sum_eq (h.map _)

/-- Each entry of the federated average is invariant under permutation of
the results. -/
theorem weightedEntry_perm (results results2 : List FitRes)
    (h : results.Perm results2) (i : ℕ) :
    weightedEntry results i = weightedEntry results2 i := by
  unfold weightedEntry
  rw [List.Perm.sum_eq (h.map _), totalExamples_perm results results2 h]

/-- When all parameter lists have length `L`, so has the head's. -/
theorem headLen_eq (results : List FitRes) (L : ℕ) (hne : results ≠ [])
    (hlen : ∀ r ∈ results, r.parameters.length = L) :
    headLen results = L := by
  cases results with
  | nil => exact absurd rfl hne
  | cons r t => exact hlen r (List.mem_cons_self r t)

/-- Reading every index of a list back in order reproduces the list. -/
theorem range_map_getD (l : List ℚ) :
    (List.range l.length).map (fun i => l.getD i 0) = l := by
  refine List.ext_getElem (by simp) ?_
  intro i h1 h2
  simp only [List.getElem_map, List.getElem_range]
  exact List.getD_eq_getElem l 0 h2

/-- On non-empty results, `aggregate_fit` returns the framework's
federated average. -/
theorem aggregate_fit_parameters (round : ℕ) (results : List FitRes)
    (failures : List Unit) (hne : results ≠ []) :
    (RichStrategy.aggregate_fit round results failures).parameters =
      some (fedAvgParams results) := by
  unfold RichStrategy.aggregate_fit baseAggregateFit
  rw [if_neg hne, if_neg hne]

/-- On non-empty results, `aggregate_fit` returns the framework's (empty)
fit metrics map. -/
theorem aggregate_fit_metrics (round : ℕ) (results : List FitRes)
    (failures : List Unit) (hne : results ≠ []) :
    (RichStrategy.aggregate_fit round results failures).metrics = [] := by
  unfold RichStrategy.aggregate_fit baseAggregateFit
  rw [if_neg hne, if_neg hne]

/-- The events logged by `aggregate_fit` on non-empty results. -/
theorem aggregate_fit_events (round : ℕ) (results : List FitRes)
    (failures : List Unit) (hne : results ≠ []) :
    (RichStrategy.aggregate_fit round results failures).events =
      Event.aggregating round results.length ::
        ((if 0 < (serverTally results).1 ∨ 0 < (serverTally results).2 then
            [Event.byteReport round (serverTally results).1 (serverTally results).2]
          else []) ++
          (if failures = [] then []
          else [Event.failureWarning round failures.length])) := by
  unfold RichStrategy.aggregate_fit
  rw [if_neg hne]

/-- C1: for every non-empty results list with positive example counts
(and parameter lists matching the architecture's length `L`),
`aggregate_fit` returns a ParameterSet whose every entry is the
example-count-weighted average of the clients' entries, with weights
`example_count[c] / Σexample_count`, exactly as the spec's formula
`new_weight[i] = Σ_c (example_count[c] / Σexample_count) * weight[i][c]`. -/
theorem aggregate_fit_weighted_average (round : ℕ) (results : List FitRes)
    (failures : List Unit) (L : ℕ) (hne : results ≠ [])
    (hpos : ∀ r ∈ results, 0 < r.numExamples)
    (hlen : ∀ r ∈ results, r.parameters.length = L) :
    ∃ ps : ParameterSet,
      (RichStrategy.aggregate_fit round results failures).parameters = some ps ∧
        ps.length = L ∧ ∀ i < L, ps.getD i 0 = specNewWeight results i := by
  have hhead : headLen results = L := headLen_eq results L hne hlen
  refine ⟨fedAvgParams results, aggregate_fit_parameters round results failures hne, ?_, ?_⟩
  · simp [fedAvgParams, hhead]
  · intro i hi
    have hkey : (fedAvgParams results).getD i 0 = weightedEntry results i := by
      unfold fedAvgParams
      rw [hhead]
      have hilen : i < ((List.range L).map (weightedEntry results)).length := by
        simpa using hi
      rw [List.getD_eq_getElem _ _ hilen]
      simp
    rw [hkey, weightedEntry_eq_spec]

/-- Witness for C1: three clients with distinct example counts 1, 2, 3 and
two-entry parameter lists; the hand-computed weighted means are 7/3 and
70/3. -/
theorem aggregate_fit_weighted_average_witness :
    ([FitRes.mk [1, 10] 1 [], FitRes.mk [2, 20] 2 [], FitRes.mk [3, 30] 3 []] :
        List FitRes) ≠ [] ∧
      (∀ r ∈ [FitRes.mk [1, 10] 1 [], FitRes.mk [2, 20] 2 [],
        FitRes.mk [3, 30] 3 []], 0 < r.numExamples) ∧
      (∀ r ∈ [FitRes.mk [1, 10] 1 [], FitRes.mk [2, 20] 2 [],
        FitRes.mk [3, 30] 3 []], r.parameters.length = 2) ∧
      specNewWeight [FitRes.mk [1, 10] 1 [], FitRes.mk [2, 20] 2 [],
        FitRes.mk [3, 30] 3 []] 0 = 7/3 ∧
      specNewWeight [FitRes.mk [1, 10] 1 [], FitRes.mk [2, 20] 2 [],
        FitRes.mk [3, 30] 3 []] 1 = 70/3 ∧
      ∃ ps : ParameterSet,
        (RichStrategy.aggregate_fit 1 [FitRes.mk [1, 10] 1 [],
            FitRes.mk [2, 20] 2 [], FitRes.mk [3, 30] 3 []] []).parameters =
          some ps ∧
          ps.length = 2 ∧
          ∀ i < 2, ps.getD i 0 = specNewWeight [FitRes.mk [1, 10] 1 [],
            FitRes.mk [2, 20] 2 [], FitRes.mk [3, 30] 3 []] i :=
  ⟨by decide, by decide, by decide,
    by norm_num [specNewWeight, totalExamples, List.getD_cons_zero, List.getD_cons_succ],
    by norm_num [specNewWeight, totalExamples, List.getD_cons_zero, List.getD_cons_succ],
    aggregate_fit_weighted_average 1 _ [] 2 (by decide) (by decide) (by decide)⟩

/-- C7: the aggregated ParameterSet is invariant under permutation of the
(non-empty) results list.  Over exact rationals the invariance is exact,
hence in particular within any floating-point tolerance. -/
theorem aggregate_fit_perm_invariant (round : ℕ)
    (results results2 : List FitRes) (failures : List Unit) (L : ℕ)
    (hne : results ≠ []) (hperm : results.Perm results2)
    (hlen : ∀ r ∈ results, r.parameters.length = L) :
    (RichStrategy.aggregate_fit round results failures).parameters =
      (RichStrategy.aggregate_fit round results2 failures).parameters := by
  have hne2 : results2 ≠ [] := fun h => hne (List.Perm.eq_nil (h ▸ hperm))
  have hlen2 : ∀ r ∈ results2, r.parameters.length = L := fun r hr =>
    hlen r (hperm.mem_iff.mpr hr)
  rw [aggregate_fit_parameters round results failures hne,
    aggregate_fit_parameters round results2 failures hne2]
  have hfed : fedAvgParams results = fedAvgParams results2 := by
    unfold fedAvgParams
    rw [headLen_eq results L hne hlen, headLen_eq results2 L hne2 hlen2]
    exact List.map_congr_left (fun i _ => weightedEntry_perm results results2 hperm i)
  rw [hfed]

/-- Witness for C7: swapping two clients leaves the aggregate unchanged. -/
theorem aggregate_fit_perm_invariant_witness :
    ([FitRes.mk [1, 2] 1 [], FitRes.mk [3, 4] 2 []] : List FitRes) ≠ [] ∧
      List.Perm [FitRes.mk [1, 2] 1 [], FitRes.mk [3, 4] 2 []]
        [FitRes.mk [3, 4] 2 [], FitRes.mk [1, 2] 1 []] ∧
      (∀ r ∈ [FitRes.mk [1, 2] 1 [], FitRes.mk [3, 4] 2 []],
        r.parameters.length = 2) ∧
      (RichStrategy.aggregate_fit 1 [FitRes.mk [1, 2] 1 [],
          FitRes.mk [3, 4] 2 []] []).parameters =
        (RichStrategy.aggregate_fit 1 [FitRes.mk [3, 4] 2 [],
          FitRes.mk [1, 2] 1 []] []).parameters :=
  ⟨by decide, List.Perm.swap (FitRes.mk [3, 4] 2 []) (FitRes.mk [1, 2] 1 []) [],
    by decide,
    aggregate_fit_perm_invariant 1 _ _ [] 2 (by decide)
      (List.Perm.swap (FitRes.mk [3, 4] 2 []) (FitRes.mk [1, 2] 1 []) [])
      (by decide)⟩

/-- C8: a round with a single client of example count `N > 0` gives that
client normalized weight `N / N = 1` and returns exactly the client's
submitted ParameterSet, whatever `N` is. -/
theorem aggregate_fit_single_client (round : ℕ) (failures : List Unit)
    (r : FitRes) (hN : 0 < r.numExamples) :
    (r.numExamples : ℚ) / totalExamples [r] = 1 ∧
      (RichStrategy.aggregate_fit round [r] failures).parameters =
        some r.parameters := by
  have hT : totalExamples [r] = (r.numExamples : ℚ) := by
    simp [totalExamples]
  have hN0 : (r.numExamples : ℚ) ≠ 0 := by
    exact_mod_cast Nat.pos_iff_ne_zero.mp hN
  constructor
  · rw [hT, div_self hN0]
  · rw [aggregate_fit_parameters round [r] failures (by simp)]
    have hentry : ∀ i, weightedEntry [r] i = r.parameters.getD i 0 := by
      intro i
      unfold weightedEntry
      rw [hT]
      simp only [List.map_cons, List.map_nil, List.sum_cons, List.sum_nil, add_zero]
      exact mul_div_cancel_left₀ _ hN0
    have hmap : (List.range r.parameters.length).map (weightedEntry [r]) =
        (List.range r.parameters.length).map (fun i => r.parameters.getD i 0) :=
      List.map_congr_left (fun i _ => hentry i)
    have hfed : fedAvgParams [r] = r.parameters := by
      unfold fedAvgParams
      show (List.range r.parameters.length).map (weightedEntry [r]) = r.parameters
      rw [hmap, range_map_getD]
    rw [hfed]

/-- Witness for C8 at a single client with example count 3 and parameters
[5, 7]. -/
theorem aggregate_fit_single_client_witness :
    0 < (FitRes.mk [5, 7] 3 []).numExamples ∧
      ((FitRes.mk [5, 7] 3 []).numExamples : ℚ) /
          totalExamples [FitRes.mk [5, 7] 3 []] = 1 ∧
      (RichStrategy.aggregate_fit 1 [FitRes.mk [5, 7] 3 []] []).parameters =
        some [5, 7] :=
  ⟨by decide,
    (aggregate_fit_single_client 1 [] (FitRes.mk [5, 7] 3 []) (by decide)).1,
    (aggregate_fit_single_client 1 [] (FitRes.mk [5, 7] 3 []) (by decide)).2⟩

/-- C9: with non-empty results and non-empty failures, `aggregate_fit`
logs the failure warning yet still returns the aggregate of the surviving
results alone — the same parameters and metrics as with no failures at
all. -/
theorem aggregate_fit_failures_nonblocking (round : ℕ)
    (results : List FitRes) (failures : List Unit)
    (hne : results ≠ []) (hf : failures ≠ []) :
    (RichStrategy.aggregate_fit round results failures).parameters =
        some (fedAvgParams results) ∧
      Event.failureWarning round failures.length ∈
        (RichStrategy.aggregate_fit round results failures).events ∧
      (RichStrategy.aggregate_fit round results failures).parameters =
        (RichStrategy.aggregate_fit round results []).parameters ∧
      (RichStrategy.aggregate_fit round results failures).metrics =
        (RichStrategy.aggregate_fit round results []).metrics := by
  refine ⟨aggregate_fit_parameters round results failures hne, ?_, ?_, ?_⟩
  · rw [aggregate_fit_events round results failures hne]
    simp [hf]
  · rw [aggregate_fit_parameters round results failures hne,
      aggregate_fit_parameters round results [] hne]
  · rw [aggregate_fit_metrics round results failures hne,
      aggregate_fit_metrics round results [] hne]

/-- Witness for C9: one surviving client, two failures. -/
theorem aggregate_fit_failures_nonblocking_witness :
    ([FitRes.mk [1] 2 []] : List FitRes) ≠ [] ∧
      ([(), ()] : List Unit) ≠ [] ∧
      ((RichStrategy.aggregate_fit 1 [FitRes.mk [1] 2 []] [(), ()]).parameters =
          some (fedAvgParams [FitRes.mk [1] 2 []]) ∧
        Event.failureWarning 1 ([(), ()] : List Unit).length ∈
          (RichStrategy.aggregate_fit 1 [FitRes.mk [1] 2 []] [(), ()]).events ∧
        (RichStrategy.aggregate_fit 1 [FitRes.mk [1] 2 []] [(), ()]).parameters =
          (RichStrategy.aggregate_fit 1 [FitRes.mk [1] 2 []] []).parameters ∧
        (RichStrategy.aggregate_fit 1 [FitRes.mk [1] 2 []] [(), ()]).metrics =
          (RichStrategy.aggregate_fit 1 [FitRes.mk [1] 2 []] []).metrics) :=
  ⟨by decide, by decide,
    aggregate_fit_failures_nonblocking 1 [FitRes.mk [1] 2 []] [(), ()]
      (by decide) (by decide)⟩

/-- C2: on a non-empty evaluation round, when every client's metrics
carry a (numeric) `accuracy` value, `aggregate_evaluate` surfaces the
example-count-weighted average of accuracy as the round's sole reported
accuracy metric and logs it; when accuracy is missing from the per-client
metrics, it returns whatever the metrics aggregation produced, unchanged
(here the empty map), and logs that accuracy is unavailable. -/
theorem aggregate_evaluate_accuracy_weighted (round : ℕ)
    (results : List EvaluateRes) (failures : List Unit) (hne : results ≠ []) :
    (results.all (fun r => (accOf r).isSome) = true →
      (RichStrategy.aggregate_evaluate round results failures).metrics =
          [("accuracy", Scalar.float (weightedAcc results))] ∧
        Event.accuracyReport round (Scalar.float (weightedAcc results)) ∈
          (RichStrategy.aggregate_evaluate round results failures).events) ∧
    (results.all (fun r => (accOf r).isSome) = false →
      (RichStrategy.aggregate_evaluate round results failures).metrics =
          (baseAggregateEvaluate results).2 ∧
        (baseAggregateEvaluate results).2 = [] ∧
        Event.noAccuracy round ∈
          (RichStrategy.aggregate_evaluate round results failures).events) := by
  have hval : RichStrategy.aggregate_evaluate round results failures =
      postEvaluate round (baseAggregateEvaluate results).1
        (baseAggregateEvaluate results).2 := by
    unfold RichStrategy.aggregate_evaluate
    rw [if_neg hne]
  constructor
  · intro hall
    have hbase : (baseAggregateEvaluate results).2 =
        [("accuracy", Scalar.float (weightedAcc results))] := by
      simp [baseAggregateEvaluate, hall]
    rw [hval, hbase]
    exact ⟨rfl, by simp [postEvaluate, lookupMetric]⟩
  · intro hnone
    have hbase : (baseAggregateEvaluate results).2 = [] := by
      simp [baseAggregateEvaluate, hnone]
    rw [hval, hbase]
    exact ⟨rfl, rfl, by simp [postEvaluate]⟩

/-- Witness for C2: two clients with accuracies 1/2 (1 example) and 1
(3 examples); the surfaced accuracy is the weighted average 7/8. -/
theorem aggregate_evaluate_accuracy_weighted_witness :
    ([EvaluateRes.mk (1/2) 1 [("accuracy", Scalar.float (1/2))],
        EvaluateRes.mk (1/4) 3 [("accuracy", Scalar.float 1)]] :
        List EvaluateRes) ≠ [] ∧
      ([EvaluateRes.mk (1/2) 1 [("accuracy", Scalar.float (1/2))],
        EvaluateRes.mk (1/4) 3 [("accuracy", Scalar.float 1)]] :
        List EvaluateRes).all (fun r => (accOf r).isSome) = true ∧
      (RichStrategy.aggregate_evaluate 1
          [EvaluateRes.mk (1/2) 1 [("accuracy", Scalar.float (1/2))],
            EvaluateRes.mk (1/4) 3 [("accuracy", Scalar.float 1)]] []).metrics =
        [("accuracy", Scalar.float (7/8))] := by
  refine ⟨by simp, ?_, ?_⟩
  · norm_num [accOf, lookupMetric, toRat?]
  · have h := ((aggregate_evaluate_accuracy_weighted 1
      [EvaluateRes.mk (1/2) 1 [("accuracy", Scalar.float (1/2))],
        EvaluateRes.mk (1/4) 3 [("accuracy", Scalar.float 1)]] []
      (by simp)).1 (by norm_num [accOf, lookupMetric, toRat?])).1
    rw [h]
    norm_num [weightedAcc, totalEvalExamples, accValD, accOf, lookupMetric, toRat?]
